import Mathlib

/-!
Verification development for the maya2katana Arnold renderer module
(`renderer/arnold/__init__.py`): a shading-network translator from Maya
node graphs to Katana node graphs.

The Python source is shallowly embedded below.  Maya scene queries
(`maya.cmds.getAttr`, `maya.cmds.listConnections`) are the read-only
SourceQuery capability of the specification and are passed in as explicit
oracle arguments (sizes, index lists, per-index colors and positions,
connection maps).  Floating-point attribute values are modelled as
rationals: the engine never performs arithmetic on them, it only copies,
compares and sorts them.  Python dictionaries whose iteration order is
irrelevant to the claims are modelled as association lists or as
functions to `Option`.
-/

namespace Maya2Katana

/-! ### replace_tx (source lines 34-42)

`os.path.splitext` is embedded following its Windows (`ntpath`) semantics,
where both `/` and the backslash separate path components: the extension
starts at the last dot that lies after the last separator, unless every
character between that separator and the dot is itself a dot (dotfiles
such as `.bashrc` have no extension). -/

/-- One character of the `root.replace` call: a backslash becomes a forward
slash; every other character is kept. -/
def slashify (c : Char) : Char :=
  if c = '\\' then '/' else c

/-- Path separator test for the `ntpath` flavour of `os.path.splitext`. -/
def isSep (c : Char) : Bool :=
  c = '/' || c = '\\'

/-- Scanning right-to-left from just before the candidate extension dot:
is there a non-dot character before the enclosing separator?  This is the
cpython guard that denies dotfiles an extension. -/
def hasNonDotBeforeSep : List Char → Bool
  | [] => false
  | c :: r => if isSep c then false else if c = '.' then hasNonDotBeforeSep r else true

/-- Core of `os.path.splitext`, working on the reversed character list.
`acc` accumulates the characters already passed over (in forward order);
they become the extension tail once the dot is found.  Returns `none`
when the path has no extension. -/
def extSplitRev : List Char → List Char → Option (List Char × List Char)
  | [], _ => none
  | c :: r, acc =>
    if isSep c then none
    else if c = '.' then
      if hasNonDotBeforeSep r then some (r, '.' :: acc) else none
    else extSplitRev r (c :: acc)

/-- `os.path.splitext`: split a path into `(root, extension)`; the
extension is empty or starts with a dot. -/
def splitext (p : List Char) : List Char × List Char :=
  match extSplitRev p.reverse [] with
  | none => (p, [])
  | some pr => (pr.1.reverse, pr.2)

/-- `replace_tx(key, filepath)` from the source: split off the extension,
force it to `.tx` when non-empty, and replace backslashes by forward
slashes in the root.  `key` is accepted and ignored exactly as in the
source. -/
def replace_tx (key : String) (p : List Char) : List Char :=
  let root := (splitext p).1
  let ext := (splitext p).2
  let ext2 := if ext = [] then [] else ['.', 't', 'x']
  root.map slashify ++ ext2

/-! ### override_clamp_params (source lines 396-404) -/

/-- A Katana attribute value as produced by the clamp override: either the
original RGB triple or a collapsed float. -/
inductive ClampValue where
  | rgb (r g b : Rat)
  | flt (x : Rat)
deriving DecidableEq

/-- `override_clamp_params(key, value)` for an RGB `value`: key `min`
collapses the triple to its least component (Python `min` over the
tuple), key `max` to its greatest, any other key returns the value
unchanged.  The two `if` statements of the source cannot both fire, so
they are an if/else chain. -/
def override_clamp_params (key : String) (r g b : Rat) : ClampValue :=
  if key = "min" then .flt (min r (min g b))
  else if key = "max" then .flt (max r (max g b))
  else .rgb r g b

/-! ### preprocess_network_material (source lines 469-491) -/

/-- A connection record: the upstream node id and its output port. -/
structure Conn where
  node : String
  originalPort : Option String
deriving DecidableEq

/-- The `for i in [...]: if connections.get(i): ... break` loop: first
present connection in priority order. -/
def firstConn (conns : String → Option Conn) : List String → Option Conn
  | [] => none
  | k :: rest =>
    match conns k with
    | some c => some c
    | none => firstConn conns rest

/-- Priority order of surface-like input ports scanned by
`preprocess_network_material`. -/
def surfacePriority : List String :=
  ["aiSurfaceShader", "surfaceShader", "aiVolumeShader", "volumeShader"]

/-- The replacement connection map built by `preprocess_network_material`:
`arnoldSurface` from the first present surface-priority connection,
`arnoldDisplacement` from `displacementShader`, nothing else. -/
def preprocess_network_material_conns (conns : String → Option Conn) :
    List (String × Conn) :=
  (match firstConn conns surfacePriority with
   | some c => [("arnoldSurface", c)]
   | none => []) ++
  (match conns "displacementShader" with
   | some c => [("arnoldDisplacement", c)]
   | none => [])

/-! ### process_network_material (source lines 195-208)

The XML group is modelled by the list of its port names.  `xml_group.find`
returns the first matching element or Python `None`; `xml_group.remove`
on `None` raises `TypeError`, modelled by the `none` result. -/

/-- Walk the branch's fixed port-name list: a name with no connection is
looked up among the tree's ports and removed; a missing port element
makes `remove(None)` raise (`none`). -/
def prunePorts (conns : String → Bool) : List String → List String → Option (List String)
  | ports, [] => some ports
  | ports, i :: rest =>
    if conns i then prunePorts conns ports rest
    else
      match (if i ∈ ports then some (ports.erase i) else none) with
      | some ps => prunePorts conns ps rest
      | none => none

/-- `process_network_material(xml_group, node)`: the mtoa-version flag
selects which fixed list of port names is checked against the node's
connection keys. -/
def process_network_material (ge2 : Bool) (conns : String → Bool)
    (ports : List String) : Option (List String) :=
  if ge2 then prunePorts conns ports ["arnoldSurface", "arnoldDisplacement"]
  else prunePorts conns ports ["arnold_surface", "arnoldBump", "arnoldDisplacement"]

/-! ### process_ramp, type and interpolation translation (source lines 211-260)

`str(attributes["type"]) == "0"` on an integer attribute is equivalent to
comparing the integer with `0`, and so on for the other digits. -/

/-- The ramp-type dispatch chain of `process_ramp`: Maya type codes 0-5
map to fixed Katana names (with a `custom` override when the relevant
coordinate port is connected); any other code logs a warning and falls
back to `custom`.  Returns the chosen type string together with the list
of warnings emitted. -/
def ramp_type_of (t : Int) (hasV hasU : Bool) : String × List String :=
  if t = 0 then (if hasV then "custom" else "v", [])
  else if t = 1 then (if hasU then "custom" else "u", [])
  else if t = 2 then ("diagonal", [])
  else if t = 3 then ("radial", [])
  else if t = 4 then ("circular", [])
  else if t = 5 then ("box", [])
  else ("custom", ["cannot translate ramp type"])

/-- The interpolation translation of `process_ramp` line 252: a single
total conditional expression, `0` for Maya mode 0, `3` for Maya mode 4,
and `2` for every other mode.  It emits no diagnostics. -/
def interpolation_code (interp : Int) : Int :=
  if interp = 0 then 0 else if interp = 4 then 3 else 2

/-- The header computations of `process_ramp`: the translated ramp type,
the translated interpolation code, and all warnings emitted while
computing them. -/
def process_ramp_head (t interp : Int) (hasV hasU : Bool) : String × Int × List String :=
  ((ramp_type_of t hasV hasU).1, interpolation_code interp, (ramp_type_of t hasV hasU).2)

/-! ### Control-point collection of process_ramp (source lines 256-285)

Oracle arguments stand for the Maya queries: `indices` is
`getAttr(... multiIndices=True)`, `hasConn i` is
`utils.has_connection(node, "colorEntryList[i].color")`, `posAt i` and
`colorAt i` are the per-index `position` and `color` attribute reads.
`utils.has_connection` lives outside the packaged source; modelled from
the spec: an input port carries a live connection exactly when the node's
connection map has an entry for it.  Python `list.sort`/`sorted` are
stable ascending sorts, embedded as a stable insertion sort. -/

/-- Stable insertion of `a` into `l`: `a` goes after every element that
compares `≤ a`. -/
def insertStable (le : α → α → Bool) (a : α) : List α → List α
  | [] => [a]
  | b :: l => if le b a then b :: insertStable le a l else a :: b :: l

/-- Stable ascending sort, equivalent to Python `sorted`/`list.sort` for a
total preorder comparator. -/
def sortStable (le : α → α → Bool) (l : List α) : List α :=
  l.foldl (fun acc x => insertStable le x acc) []

/-- A collected control-point value: a running connection index (when any
point of the ramp is connection-driven) or a literal color. -/
inductive EntryVal where
  | idx (n : Nat)
  | lit (c : List Rat)
deriving DecidableEq

/-- One collected control point of `process_ramp`. -/
structure RampEntry where
  value : EntryVal
  position : Rat
deriving DecidableEq

/-- The collection loop of `process_ramp` lines 267-284, before the final
position sort: when any point is connected (`has_connections`), every
iteration stores the running counter `index` and increments it; otherwise
each point stores its literal color. -/
def buildEntries (sortedIdx : List Nat) (hasConn : Nat → Bool)
    (posAt : Nat → Rat) (colorAt : Nat → List Rat) : List RampEntry :=
  if sortedIdx.any hasConn then
    sortedIdx.enum.map (fun p => ⟨.idx p.1, posAt p.2⟩)
  else
    sortedIdx.map (fun i => ⟨.lit (colorAt i), posAt i⟩)

/-- The full `color_entry_list` of `process_ramp`: indices sorted
ascending, points collected, then sorted by position (lines 258, 285). -/
def color_entry_list_of (indices : List Nat) (hasConn : Nat → Bool)
    (posAt : Nat → Rat) (colorAt : Nat → List Rat) : List RampEntry :=
  sortStable (fun a b => a.position ≤ b.position)
    (buildEntries (sortStable (fun a b : Nat => a ≤ b) indices) hasConn posAt colorAt)

/-! ### Ramp array emission of process_ramp (source lines 305-371)

Each loop iteration appends XML `number_parameter` children named
`i<n>`; a write is modelled as the pair `(n, value)`.  The claims concern
the constant (non-connected) case, where the emitted values are the
literal positions and color components of the already-sorted control
points.  `color_entry_list_size` in the source is the point count plus 2. -/

/-- Component `j` of an emitted tuple value:
`value[j] if tuple_size > 1 else value` (a color is a component list; in
the scalar case the value itself is emitted). -/
def compAt (ts : Nat) (v : List Rat) (j : Nat) : Rat :=
  if 1 < ts then v.getD j 0 else v.getD 0 0

/-- The declared array size attribute: `tuple_size * color_entry_list_size`
for a ramp with `k` control points. -/
def rampArraySize (ts k : Nat) : Nat :=
  ts * (k + 2)

/-- The `dest_key == "color"` emission loop (lines 308-336) over
`range(color_entry_list_size - 2)`: iteration 0 writes slots 0 and 1,
middle iterations write slot `i+1` (name offset `+3` with tuple size 3),
the last iteration writes slots `k` and `k+1` (offsets `+3` and `+6`). -/
def colorSlotWrites (ts : Nat) (colors : List (List Rat)) : List (Nat × Rat) :=
  let size := colors.length + 2
  (List.range (size - 2)).flatMap (fun i =>
    let v := colors.getD i []
    if i = 0 then
      ((List.range ts).map (fun j => (i * ts + j, compAt ts v j))) ++
      ((List.range ts).map (fun j => (i * ts + j + 3, compAt ts v j)))
    else if i < size - 3 then
      (List.range ts).map (fun j => (i * ts + j + 3, compAt ts v j))
    else
      ((List.range ts).map (fun j => (i * ts + j + 3, compAt ts v j))) ++
      ((List.range ts).map (fun j => (i * ts + j + 6, compAt ts v j))))

/-- The `dest_key == "position"` emission loop (lines 337-371) over
`range(color_entry_list_size)`: the read index wraps (`i` below the point
count, else `i - 2`), iteration 0 writes literal 0 and then the value at
offset `+1`, middle iterations write at offset `+1`, and every iteration
from `size - 3` on takes the trailing branch writing offsets `+1` and
`+2`. -/
def positionSlotWrites (ts : Nat) (positions : List Rat) : List (Nat × Rat) :=
  let size := positions.length + 2
  (List.range size).flatMap (fun i =>
    let v := positions.getD (if i < size - 2 then i else i - 2) 0
    if i = 0 then
      ((List.range ts).map (fun j => (i * ts + j, (0 : Rat)))) ++
      ((List.range ts).map (fun j => (i * ts + j + 1, v)))
    else if i < size - 3 then
      (List.range ts).map (fun j => (i * ts + j + 1, v))
    else
      ((List.range ts).map (fun j => (i * ts + j + 1, v))) ++
      ((List.range ts).map (fun j => (i * ts + j + 2, v))))

/-! ### preprocess_ramp (source lines 117-192)

`centries` is the dictionary extracted by the regular-expression scan of
the node's connection keys `color_entry_list[<i>]`, as an association
list; `totalSize` is `getAttr(node + ".colorEntryList", size=True)`;
`indices` is the multi-index list; `colorAt` reads a literal entry color.
`utils.unique_name` (outside the packaged source; modelled from the spec
as a collision-free allocator) is modelled by suffixing, which is the
base-name part of the allocated name. -/

/-- A node record emitted by `preprocess_ramp`. -/
inductive RampPreNode where
  | emptyRec (oldName renameTo : String)
  | mixRec (mname : String) (input1 input2 : Sum Conn (List Rat))
      (mixFrom renameOld renameNew : String)
  | origRec (name ntype : String)
deriving DecidableEq

/-- The mix-node input for control point `i`: its live connection when one
exists, otherwise the literal entry color. -/
def mixInput (centries : List (Nat × Conn)) (colorAt : Nat → List Rat)
    (i : Nat) : Sum Conn (List Rat) :=
  match centries.lookup i with
  | some c => .inl c
  | none => .inr (colorAt i)

/-- `preprocess_ramp(node)`: fewer than two Maya points AND at least one
connected entry collapses the ramp (to a rename-carrying dummy node when
exactly one point exists, to nothing when none do); otherwise one or two
connected entries produce a mix node fed by the original node retyped to
`rampFloat`; otherwise the node passes through unchanged. -/
def preprocess_ramp (name ntype : String) (centries : List (Nat × Conn))
    (totalSize : Nat) (indices : List Nat) (colorAt : Nat → List Rat) :
    List RampPreNode :=
  if totalSize < 2 ∧ centries ≠ [] then
    if totalSize = 1 then
      match centries.head? with
      | some ic => [.emptyRec name ic.2.node]
      | none => []
    else []
  else
    if 0 < centries.length ∧ centries.length ≤ 2 then
      [.mixRec (name ++ "Mix") (mixInput centries colorAt (indices.getD 0 0))
          (mixInput centries colorAt (indices.getD 1 0)) name name (name ++ "Mix"),
       .origRec name "rampFloat"]
    else [.origRec name ntype]

/-- Does a `preprocess_ramp` result contain a mix node? -/
def hasMixRec : List RampPreNode → Bool
  | [] => false
  | .mixRec _ _ _ _ _ _ :: _ => true
  | _ :: rest => hasMixRec rest

/-! ### postprocess_network_material shader walk (source lines 499-508)

The walk state is the current `shader_node` (`none` when a lookup in
`all_nodes` failed).  A node is modelled by its type and the target of
its `beauty` connection, the only fields the walk reads. -/

/-- The fields of a mapped node that the surface-shader walk inspects. -/
structure KNode where
  ntype : String
  beauty : Option String
deriving DecidableEq

/-- The loop guard's type test: pass-through AOV aggregation nodes. -/
def isPassThroughType (t : String) : Bool :=
  t == "aov_write_rgb" || t == "aov_write_float"

/-- The `while` condition: the walk continues while the current node
exists and is a pass-through AOV node. -/
def chaseCond (s : Option KNode) : Bool :=
  match s with
  | some n => isPassThroughType n.ntype
  | none => false

/-- One iteration of the loop body: follow the `beauty` connection when
present; otherwise the state is left unchanged (the source has no `else`
branch). -/
def chaseStep (all : String → Option KNode) (s : Option KNode) : Option KNode :=
  match s with
  | some n =>
    match n.beauty with
    | some target => all target
    | none => some n
  | none => none

/-- Fuel-bounded execution of the `while` loop: `none` when the given
number of iterations did not reach termination, `some s` with the final
state otherwise. -/
def chaseRun (all : String → Option KNode) : Nat → Option KNode → Option (Option KNode)
  | 0, s => if chaseCond s then none else some s
  | fuel + 1, s => if chaseCond s then chaseRun all fuel (chaseStep all s) else some s

/-! ## Theorems -/

/-- Claim C10: the clamp override converts RGB clamp bounds to floats:
key `min` yields the least component, key `max` the greatest, and any
other key returns the value unchanged. -/
theorem C10_override_clamp_spec (key : String) (r g b : Rat) :
    (override_clamp_params "min" r g b = .flt (min r (min g b)) ∧
      min r (min g b) ≤ r ∧ min r (min g b) ≤ g ∧ min r (min g b) ≤ b ∧
      (min r (min g b) = r ∨ min r (min g b) = g ∨ min r (min g b) = b)) ∧
    (override_clamp_params "max" r g b = .flt (max r (max g b)) ∧
      r ≤ max r (max g b) ∧ g ≤ max r (max g b) ∧ b ≤ max r (max g b) ∧
      (max r (max g b) = r ∨ max r (max g b) = g ∨ max r (max g b) = b)) ∧
    (key ≠ "min" → key ≠ "max" → override_clamp_params key r g b = .rgb r g b) := by
  refine ⟨⟨by simp [override_clamp_params], min_le_left r _,
      le_trans (min_le_right r (min g b)) (min_le_left g b),
      le_trans (min_le_right r (min g b)) (min_le_right g b), ?_⟩,
    ⟨by simp [override_clamp_params], le_max_left r _,
      le_trans (le_max_left g b) (le_max_right r (max g b)),
      le_trans (le_max_right g b) (le_max_right r (max g b)), ?_⟩, ?_⟩
  · rcases min_choice r (min g b) with h | h
    · exact Or.inl h
    · rcases min_choice g b with h2 | h2
      · exact Or.inr (Or.inl (h.trans h2))
      · exact Or.inr (Or.inr (h.trans h2))
  · rcases max_choice r (max g b) with h | h
    · exact Or.inl h
    · rcases max_choice g b with h2 | h2
      · exact Or.inr (Or.inl (h.trans h2))
      · exact Or.inr (Or.inr (h.trans h2))
  · intro h1 h2
    simp [override_clamp_params, h1, h2]

/-- Witness for C10 at a concrete unrelated key and RGB value. -/
theorem C10_clamp_w : override_clamp_params "input" 1 2 3 = .rgb 1 2 3 :=
  (C10_override_clamp_spec "input" 1 2 3).2.2 (by decide) (by decide)

/-- Claim C2 is false on the code (code bug): the surface-shader walk of
`postprocess_network_material` does not terminate on every input.  On an
`arnoldSurface` connection leading to an `aov_write_rgb` node with no
`beauty` connection, the loop guard stays true and the body leaves the
state unchanged, so no amount of fuel completes the loop. -/
theorem C2_postprocess_walk_diverges :
    chaseCond (some ⟨"aov_write_rgb", none⟩) = true ∧
    chaseStep (fun _ => none) (some ⟨"aov_write_rgb", none⟩) =
      some ⟨"aov_write_rgb", none⟩ ∧
    ∀ fuel : Nat,
      chaseRun (fun _ => none) fuel (some ⟨"aov_write_rgb", none⟩) = none := by
  refine ⟨rfl, rfl, ?_⟩
  intro fuel
  induction fuel with
  | zero => rfl
  | succ n ih =>
    simp only [chaseRun, chaseCond, chaseStep, isPassThroughType]
    simpa using ih

/-- Claim C7 is false on the code (code bug): with mtoa version below 2,
`process_network_material` checks the port name `arnold_surface` while
`preprocess_network_material` records the surface connection under the
key `arnoldSurface`.  Hence with a live surface connection, a tree whose
surface port is named `arnold_surface` loses that port, and a tree whose
surface port is named `arnoldSurface` makes `remove(None)` raise. -/
theorem C7_mtoa1_surface_port_pruned_despite_connection :
    (fun k => k == "arnoldSurface") "arnoldSurface" = true ∧
    process_network_material false (fun k => k == "arnoldSurface")
      ["arnold_surface", "arnoldBump", "arnoldDisplacement"] = some [] ∧
    process_network_material false (fun k => k == "arnoldSurface")
      ["arnoldSurface", "arnoldBump", "arnoldDisplacement"] = none ∧
    process_network_material true (fun k => k == "arnoldSurface")
      ["arnoldSurface", "arnoldDisplacement"] = some ["arnoldSurface"] := by
  refine ⟨rfl, ?_, ?_, ?_⟩ <;> decide

/-- Claim C5 is falsified at interpolation mode 5: an interpolation mode
outside the translated pair yields the fixed code 2, the same code as
mode 1, with no warning and no `custom` fallback. -/
theorem C5_interpolation_silent_fallback :
    process_ramp_head 0 5 false false = ("v", 2, []) ∧
    interpolation_code 5 = interpolation_code 1 ∧
    (process_ramp_head 0 5 false false).2.2 = [] := by
  decide

/-- Claim C5 amended: the interpolation mode is mapped by the total fixed
table 0 to 0, 4 to 3 and everything else to 2, with no warning and no
failure; the `custom` fallback plus diagnostic warning belongs to the
ramp-type translation, where a type outside 0..5 yields `custom` plus a
warning and a type inside 0..5 yields no warning. -/
theorem C5_interpolation_and_type_table (t interp : Int) (hasV hasU : Bool) :
    (interp = 0 → (process_ramp_head t interp hasV hasU).2.1 = 0) ∧
    (interp = 4 → (process_ramp_head t interp hasV hasU).2.1 = 3) ∧
    (interp ≠ 0 → interp ≠ 4 → (process_ramp_head t interp hasV hasU).2.1 = 2) ∧
    ((process_ramp_head t interp hasV hasU).2.1 = 0 ∨
      (process_ramp_head t interp hasV hasU).2.1 = 2 ∨
      (process_ramp_head t interp hasV hasU).2.1 = 3) ∧
    ((t < 0 ∨ 5 < t) →
      (process_ramp_head t interp hasV hasU).1 = "custom" ∧
      (process_ramp_head t interp hasV hasU).2.2 ≠ []) ∧
    (0 ≤ t → t ≤ 5 → (process_ramp_head t interp hasV hasU).2.2 = []) := by
  refine ⟨?_, ?_, ?_, ?_, ?_, ?_⟩
  · intro h
    subst h
    simp [process_ramp_head, interpolation_code]
  · intro h
    subst h
    simp [process_ramp_head, interpolation_code]
  · intro h1 h2
    simp [process_ramp_head, interpolation_code, h1, h2]
  · simp only [process_ramp_head, interpolation_code]
    split_ifs <;> simp
  · intro ht
    have h0 : t ≠ 0 := by rcases ht with ht | ht <;> omega
    have h1 : t ≠ 1 := by rcases ht with ht | ht <;> omega
    have h2 : t ≠ 2 := by rcases ht with ht | ht <;> omega
    have h3 : t ≠ 3 := by rcases ht with ht | ht <;> omega
    have h4 : t ≠ 4 := by rcases ht with ht | ht <;> omega
    have h5 : t ≠ 5 := by rcases ht with ht | ht <;> omega
    simp [process_ramp_head, ramp_type_of, h0, h1, h2, h3, h4, h5]
  · intro hl hu
    simp only [process_ramp_head, ramp_type_of]
    split_ifs <;> first | rfl | omega

/-- Witness for C5 at ramp type 7 with interpolation modes 5, 0 and 4:
the three table rows and the type fallback, concretely. -/
theorem C5_table_w :
    (process_ramp_head 7 5 true false).1 = "custom" ∧
    (process_ramp_head 7 5 true false).2.2 ≠ [] ∧
    (process_ramp_head 7 5 true false).2.1 = 2 ∧
    (process_ramp_head 7 0 true false).2.1 = 0 ∧
    (process_ramp_head 7 4 true false).2.1 = 3 := by
  obtain ⟨_, _, hint, _, htyp, _⟩ := C5_interpolation_and_type_table 7 5 true false
  exact ⟨(htyp (by decide)).1, (htyp (by decide)).2, hint (by decide) (by decide),
    (C5_interpolation_and_type_table 7 0 true false).1 rfl,
    (C5_interpolation_and_type_table 7 4 true false).2.1 rfl⟩

/-- Claim C6 is falsified on a two-point ramp where only the first point
is connected: the constant second point does not keep its literal color
`[1, 0, 0]`; it is assigned the running index 1 as well. -/
theorem C6_constant_point_gets_index :
    color_entry_list_of [0, 1] (fun i => i == 0)
        (fun i => if i = 0 then 0 else 1) (fun _ => [1, 0, 0]) =
      [⟨.idx 0, 0⟩, ⟨.idx 1, 1⟩] ∧
    (⟨.lit [1, 0, 0], 1⟩ : RampEntry) ∉
      color_entry_list_of [0, 1] (fun i => i == 0)
        (fun i => if i = 0 then 0 else 1) (fun _ => [1, 0, 0]) := by
  decide

/-- Claim C6 amended: whenever any control point carries a live
connection, ALL points (constants included) are assigned 0-based running
indices, in ascending control-point index order, instead of their literal
values. -/
theorem C6_all_points_running_indices (sortedIdx : List Nat) (hasConn : Nat → Bool)
    (posAt : Nat → Rat) (colorAt : Nat → List Rat)
    (h : sortedIdx.any hasConn = true) :
    (buildEntries sortedIdx hasConn posAt colorAt).map RampEntry.value =
      (List.range sortedIdx.length).map EntryVal.idx := by
  unfold buildEntries
  rw [if_pos h, List.map_map, ← List.enum_map_fst sortedIdx, List.map_map]
  rfl

/-- Witness for C6 on indices `[2, 5]` with the second point connected. -/
theorem C6_indices_w :
    (buildEntries [2, 5] (fun i => i == 5) (fun _ => 0)
        (fun _ => [0, 0, 0])).map RampEntry.value =
      [EntryVal.idx 0, EntryVal.idx 1] :=
  (C6_all_points_running_indices [2, 5] (fun i => i == 5) (fun _ => 0)
      (fun _ => [0, 0, 0]) (by decide)).trans (by decide)

/-- Claim C3 is falsified by a ramp with exactly one constant
(non-connected) control point: the guard also requires a connected entry,
so the node is kept as a standalone ramp node. -/
theorem C3_degenerate_constant_ramp_kept :
    preprocess_ramp "ramp1" "ramp" [] 1 [0] (fun _ => [1, 0, 0]) =
      [.origRec "ramp1" "ramp"] := by
  decide

/-- Claim C3 amended: a ramp with 0 or 1 Maya control points AND at least
one connected color entry never survives as a standalone ramp: with zero
points it is dropped outright, and with exactly one point it is dropped
with a rename entry mapping the ramp's id to the connected entry's
source node. -/
theorem C3_degenerate_connected_ramp_collapse (name ntype : String)
    (centries : List (Nat × Conn)) (totalSize : Nat) (indices : List Nat)
    (colorAt : Nat → List Rat) (h1 : totalSize < 2) (h2 : centries ≠ []) :
    (totalSize = 0 ∧ preprocess_ramp name ntype centries totalSize indices colorAt = []) ∨
    (totalSize = 1 ∧ ∃ ic, centries.head? = some ic ∧
      preprocess_ramp name ntype centries totalSize indices colorAt =
        [.emptyRec name ic.2.node]) := by
  interval_cases totalSize
  · exact Or.inl ⟨rfl, by simp [preprocess_ramp, h2]⟩
  · refine Or.inr ⟨rfl, ?_⟩
    obtain ⟨ic, hic⟩ : ∃ ic, centries.head? = some ic := by
      cases centries with
      | nil => exact absurd rfl h2
      | cons a l => exact ⟨a, rfl⟩
    exact ⟨ic, hic, by simp [preprocess_ramp, h2, hic]⟩

/-- Witness for C3 on a one-point ramp whose single entry is connected to
node `S`. -/
theorem C3_collapse_w :
    preprocess_ramp "r" "ramp" [(0, ⟨"S", none⟩)] 1 [0] (fun _ => []) =
      [.emptyRec "r" "S"] := by
  rcases C3_degenerate_connected_ramp_collapse "r" "ramp" [(0, ⟨"S", none⟩)] 1 [0]
      (fun _ => []) (by decide) (by decide) with ⟨h, _⟩ | ⟨_, ic, hic, he⟩
  · exact absurd h (by decide)
  · have hic2 : ic = (0, (⟨"S", none⟩ : Conn)) := (Option.some.inj hic).symm
    rw [hic2] at he
    exact he

/-- Claim C4 is falsified by a one-point ramp whose point is connected
(total point count 1, hence at most 2): the hook drops the node with a
rename to the source instead of producing a mix node. -/
theorem C4_single_point_connected_no_mix :
    preprocess_ramp "r" "ramp" [(0, ⟨"S", none⟩)] 1 [0] (fun _ => [1, 1, 1]) =
      [.emptyRec "r" "S"] ∧
    hasMixRec (preprocess_ramp "r" "ramp" [(0, ⟨"S", none⟩)] 1 [0]
        (fun _ => [1, 1, 1])) = false := by
  decide

/-- Claim C4 amended: for a ramp with exactly 2 control points of which
one or two are connected, the hook emits a mix node whose inputs come
from the connected entries (or literal colors), whose `mix` port is fed
by the original node, together with the original node retyped to
`rampFloat`, and carrying a rename from the old ramp id to the mix
node. -/
theorem C4_two_point_mix_replacement (name ntype : String)
    (centries : List (Nat × Conn)) (indices : List Nat) (colorAt : Nat → List Rat)
    (i0 i1 : Nat) (hidx : indices = [i0, i1]) (hc1 : centries ≠ [])
    (hc2 : centries.length ≤ 2) :
    preprocess_ramp name ntype centries 2 indices colorAt =
      [.mixRec (name ++ "Mix") (mixInput centries colorAt i0)
          (mixInput centries colorAt i1) name name (name ++ "Mix"),
       .origRec name "rampFloat"] := by
  have hlen : 0 < centries.length := List.length_pos.mpr hc1
  subst hidx
  simp [preprocess_ramp, hlen, hc2]

/-- Witness for C4 on a two-point ramp with the first point connected to
`S` and the second a literal color. -/
theorem C4_mix_w :
    preprocess_ramp "r" "ramp" [(0, ⟨"S", none⟩)] 2 [0, 1] (fun _ => [1, 1, 1]) =
      [.mixRec "rMix" (.inl ⟨"S", none⟩) (.inr [1, 1, 1]) "r" "r" "rMix",
       .origRec "r" "rampFloat"] :=
  (C4_two_point_mix_replacement "r" "ramp" [(0, ⟨"S", none⟩)] [0, 1]
      (fun _ => [1, 1, 1]) 0 1 rfl (by decide) (by decide)).trans (by decide)

/-- Claim C1 is false on the code (code bug): on a two-point constant ramp
with positions 0 and 1, the color array is the clean 4-slot layout with
boundary duplication, but the position loop runs its trailing branch for
the last three iterations: it writes slot 3 twice with conflicting
values (1 then 0) and writes slots 4 and 5, beyond the declared 4-slot
array size. -/
theorem C1_ramp_position_encoding_bug :
    colorSlotWrites 3 [[1, 1, 1], [0, 0, 0]] =
      [(0, 1), (1, 1), (2, 1), (3, 1), (4, 1), (5, 1),
       (6, 0), (7, 0), (8, 0), (9, 0), (10, 0), (11, 0)] ∧
    rampArraySize 3 2 = 12 ∧
    positionSlotWrites 1 [0, 1] =
      [(0, 0), (1, 0), (2, 1), (3, 1), (3, 0), (4, 0), (4, 1), (5, 1)] ∧
    rampArraySize 1 2 = 4 ∧
    (positionSlotWrites 1 [0, 1]).filter (fun w => w.1 == 3) = [(3, 1), (3, 0)] ∧
    (4, (0 : Rat)) ∈ positionSlotWrites 1 [0, 1] ∧
    (5, (1 : Rat)) ∈ positionSlotWrites 1 [0, 1] := by
  decide

/-- Claim C9: `preprocess_network_material` rebuilds the connection map
with at most two entries: `arnoldSurface` from the first present
connection in the priority order aiSurfaceShader, surfaceShader,
aiVolumeShader, volumeShader, and `arnoldDisplacement` from
`displacementShader`; every other incoming connection is discarded. -/
theorem C9_network_material_preprocess_conns (conns : String → Option Conn) :
    ((preprocess_network_material_conns conns).lookup "arnoldSurface" =
      firstConn conns surfacePriority) ∧
    (firstConn conns surfacePriority =
      (conns "aiSurfaceShader").orElse (fun _ =>
        (conns "surfaceShader").orElse (fun _ =>
          (conns "aiVolumeShader").orElse (fun _ => conns "volumeShader")))) ∧
    ((preprocess_network_material_conns conns).lookup "arnoldDisplacement" =
      conns "displacementShader") ∧
    (preprocess_network_material_conns conns).length ≤ 2 ∧
    (∀ k : String, k ≠ "arnoldSurface" → k ≠ "arnoldDisplacement" →
      (preprocess_network_material_conns conns).lookup k = none) := by
  cases h1 : conns "aiSurfaceShader" <;>
  cases h2 : conns "surfaceShader" <;>
  cases h3 : conns "aiVolumeShader" <;>
  cases h4 : conns "volumeShader" <;>
  cases h5 : conns "displacementShader" <;>
  refine ⟨?_, ?_, ?_, ?_, ?_⟩ <;>
  first
  | (intro k hk1 hk2
     have e1 : (k == "arnoldSurface") = false := beq_eq_false_iff_ne.mpr hk1
     have e2 : (k == "arnoldDisplacement") = false := beq_eq_false_iff_ne.mpr hk2
     simp [preprocess_network_material_conns, firstConn, surfacePriority,
       Option.orElse, h1, h2, h3, h4, h5, List.lookup, e1, e2])
  | simp [preprocess_network_material_conns, firstConn, surfacePriority,
      Option.orElse, h1, h2, h3, h4, h5, List.lookup]

/-- Witness for C9 at a concrete connection map holding only a
`surfaceShader` connection: the unrelated key is discarded and the
surface entry is present. -/
theorem C9_conns_w :
    (preprocess_network_material_conns
        (fun k => if k = "surfaceShader" then some ⟨"S", none⟩ else none)).lookup
      "surfaceShader" = none := by
  have h := (C9_network_material_preprocess_conns
      (fun k => if k = "surfaceShader" then some ⟨"S", none⟩ else none)).2.2.2.2
  exact h "surfaceShader" (by decide) (by decide)

/-! ### Lemmas about slashify and splitext, leading to claim C8 -/

theorem slashify_slashify (c : Char) : slashify (slashify c) = slashify c := by
  by_cases h : c = '\\'
  · subst h; decide
  · simp [slashify, h]

theorem map_slashify_idem (l : List Char) :
    (l.map slashify).map slashify = l.map slashify := by
  induction l with
  | nil => rfl
  | cons a l ih => simp [slashify_slashify, ih]

theorem isSep_slashify (c : Char) : isSep (slashify c) = isSep c := by
  by_cases h : c = '\\'
  · subst h; decide
  · simp [slashify, h]

theorem slashify_of_not_sep (c : Char) (h : isSep c = false) : slashify c = c := by
  have hc : c ≠ '\\' := by
    intro hc; subst hc; exact absurd h (by decide)
  simp [slashify, hc]

theorem slashify_eq_dot (c : Char) : slashify c = '.' ↔ c = '.' := by
  constructor
  · intro h
    by_cases hb : c = '\\'
    · subst hb; exact absurd h (by decide)
    · simpa [slashify, hb] using h
  · intro h; subst h; decide

theorem hasNonDot_map (l : List Char) :
    hasNonDotBeforeSep (l.map slashify) = hasNonDotBeforeSep l := by
  induction l with
  | nil => rfl
  | cons c r ih =>
    simp only [List.map_cons, hasNonDotBeforeSep, isSep_slashify]
    by_cases hs : isSep c = true
    · simp [hs]
    · by_cases hd : c = '.'
      · subst hd
        have hdot : slashify '.' = '.' := by decide
        simp [hs, hdot, ih]
      · have hd2 : ¬ slashify c = '.' := fun h => hd ((slashify_eq_dot c).mp h)
        simp [hs, hd, hd2]

theorem extSplitRev_ext_ne_nil (l : List Char) :
    ∀ acc pr, extSplitRev l acc = some pr → pr.2 ≠ [] := by
  induction l with
  | nil => intro acc pr h; simp [extSplitRev] at h
  | cons c r ih =>
    intro acc pr h
    unfold extSplitRev at h
    by_cases hs : isSep c = true
    · rw [if_pos hs] at h
      exact absurd h (by simp)
    · rw [if_neg hs] at h
      by_cases hd : c = '.'
      · rw [if_pos hd] at h
        by_cases hn : hasNonDotBeforeSep r = true
        · rw [if_pos hn] at h
          have h2 := Option.some.inj h
          rw [← h2]
          simp
        · rw [if_neg hn] at h
          exact absurd h (by simp)
      · rw [if_neg hd] at h
        exact ih _ _ h

theorem extSplitRev_map (l : List Char) :
    ∀ acc, extSplitRev (l.map slashify) (acc.map slashify) =
      Option.map (fun pr : List Char × List Char =>
        (pr.1.map slashify, pr.2.map slashify)) (extSplitRev l acc) := by
  induction l with
  | nil => intro acc; rfl
  | cons c r ih =>
    intro acc
    by_cases hs : isSep c = true
    · have hs2 : isSep (slashify c) = true := by rw [isSep_slashify]; exact hs
      simp [extSplitRev, hs, hs2]
    · have hsf : isSep c = false := by simpa using hs
      have hs2 : isSep (slashify c) = false := by rw [isSep_slashify]; exact hsf
      by_cases hd : c = '.'
      · have hd2 : slashify c = '.' := (slashify_eq_dot c).mpr hd
        by_cases hn : hasNonDotBeforeSep r = true
        · have hn2 : hasNonDotBeforeSep (r.map slashify) = true := by
            rw [hasNonDot_map]; exact hn
          have hdot : slashify '.' = '.' := by decide
          subst hd
          simp [extSplitRev, hsf, hs2, hn, hn2, hdot]
        · have hnf : hasNonDotBeforeSep r = false := by simpa using hn
          have hn2 : hasNonDotBeforeSep (r.map slashify) = false := by
            rw [hasNonDot_map]; exact hnf
          have hdot : slashify '.' = '.' := by decide
          subst hd
          simp [extSplitRev, hsf, hs2, hnf, hn2, hdot]
      · have hd2 : ¬ slashify c = '.' := fun h => hd ((slashify_eq_dot c).mp h)
        have hc : slashify c = c := slashify_of_not_sep c hsf
        have hrec := ih (c :: acc)
        rw [List.map_cons, hc] at hrec
        simp only [List.map_cons, extSplitRev, hc, hsf, hd, hd2]
        simpa [hsf, hd] using hrec

theorem splitext_slashify (p : List Char) :
    extSplitRev ((p.map slashify).reverse) [] =
      Option.map (fun pr : List Char × List Char =>
        (pr.1.map slashify, pr.2.map slashify)) (extSplitRev p.reverse []) := by
  have h := extSplitRev_map p.reverse []
  simpa [List.map_reverse] using h

/-- Claim C8: `replace_tx` is idempotent, a filepath with a non-empty
extension maps to its slash-normalized root plus `.tx`, and a filepath
with no extension undergoes only the slash replacement. -/
theorem C8_replace_tx_spec (key : String) (p : List Char) :
    replace_tx key (replace_tx key p) = replace_tx key p ∧
    ((splitext p).2 ≠ [] →
      replace_tx key p = (splitext p).1.map slashify ++ ['.', 't', 'x']) ∧
    ((splitext p).2 = [] → replace_tx key p = p.map slashify) := by
  have step : ∀ RR : List Char, extSplitRev ('x' :: 't' :: '.' :: RR) [] =
      (if hasNonDotBeforeSep RR then some (RR, ['.', 't', 'x']) else none) := by
    intro RR
    simp [extSplitRev, isSep]
  refine ⟨?_, ?_, ?_⟩
  · cases hm : extSplitRev p.reverse [] with
    | none =>
      have hout : replace_tx key p = p.map slashify := by
        simp [replace_tx, splitext, hm]
      rw [hout]
      have hm2 : extSplitRev ((p.map slashify).reverse) [] = none := by
        rw [splitext_slashify, hm]; rfl
      simp [replace_tx, splitext, hm2, slashify_slashify]
    | some pr =>
      obtain ⟨rootRev, ext⟩ := pr
      have hne : ext ≠ [] := extSplitRev_ext_ne_nil p.reverse [] (rootRev, ext) hm
      have hout : replace_tx key p =
          rootRev.reverse.map slashify ++ ['.', 't', 'x'] := by
        simp [replace_tx, splitext, hm, hne]
      rw [hout]
      by_cases hn : hasNonDotBeforeSep (rootRev.map slashify) = true
      · simp [replace_tx, splitext, step, hn, slashify_slashify, Function.comp]
      · have hnf : hasNonDotBeforeSep (rootRev.map slashify) = false := by
          simpa using hn
        have hcomp : List.map (slashify ∘ slashify) rootRev =
            List.map slashify rootRev := by
          rw [← List.map_map, map_slashify_idem]
        have e1 : slashify '.' = '.' := by decide
        have e2 : slashify 't' = 't' := by decide
        have e3 : slashify 'x' = 'x' := by decide
        simp [replace_tx, splitext, step, hnf, hcomp, e1, e2, e3]
  · intro h
    simp only [replace_tx]
    rw [if_neg h]
  · intro h
    cases hm : extSplitRev p.reverse [] with
    | none => simp [replace_tx, splitext, hm]
    | some pr =>
      have hne := extSplitRev_ext_ne_nil p.reverse [] pr hm
      exfalso
      apply hne
      simpa [splitext, hm] using h

/-- Witness for C8 on the concrete path `a\b.png`, which normalizes to
`a/b.tx`. -/
theorem C8_replace_tx_w :
    replace_tx "texture" (replace_tx "texture"
        ['a', '\\', 'b', '.', 'p', 'n', 'g']) =
      replace_tx "texture" ['a', '\\', 'b', '.', 'p', 'n', 'g'] ∧
    (splitext ['a', '\\', 'b', '.', 'p', 'n', 'g']).2 ≠ [] ∧
    replace_tx "texture" ['a', '\\', 'b', '.', 'p', 'n', 'g'] =
      (splitext ['a', '\\', 'b', '.', 'p', 'n', 'g']).1.map slashify ++
        ['.', 't', 'x'] :=
  ⟨(C8_replace_tx_spec "texture" ['a', '\\', 'b', '.', 'p', 'n', 'g']).1,
    by decide,
    (C8_replace_tx_spec "texture" ['a', '\\', 'b', '.', 'p', 'n', 'g']).2.1
      (by decide)⟩

end Maya2Katana
